import Mathlib

/-!
Shallow embedding of the caching reverse proxy
(`src/apiCache.ts` and the express request handler in `src/unnamed/part_000`).

JavaScript runtime values that matter here (JSON documents, the values a
`JSON.parse` reviver produces, and ES6 `Map` objects) are modelled by
`JsonValue`.  Machine integers in the source are JS numbers used only at
integral values (timestamps, HTTP status codes, TTL seconds), modelled as
`Int`.  Fallible operations (file reads, `JSON.parse`, redis commands,
promise rejection) are modelled with `Except String`.
-/

set_option autoImplicit false

/-- JS values flowing through the cache code: JSON documents and revived
values.  The `map` constructor models an ES6 `Map` object (its entries are
arbitrary JS values, since `new Map(pairs)` does not constrain them). -/
inductive JsonValue where
  | null
  | bool (b : Bool)
  | num (n : Int)
  | str (s : String)
  | arr (elems : List JsonValue)
  | obj (fields : List (String × JsonValue))
  | map (entries : List (JsonValue × JsonValue))

/-- Models the JS strict comparison `value === null`. -/
def JsonValue.isNull : JsonValue → Bool
  | .null => true
  | _ => false

/-- `CacheEntry` from `src/apiCache.ts`: `{ data: any | null; timeStored:
number; status: number }`.  A JS `null` in `data` is `JsonValue.null`. -/
structure CacheEntry where
  data : JsonValue
  timeStored : Int
  status : Int

/-- `CACHE_TTL_SECONDS` (default when the environment variable is unset). -/
def CACHE_TTL_SECONDS : Int := 1800

/-- ES6 `Map.prototype.get` on an association list (a JS `Map` holds its
entries in insertion order with unique keys). -/
def alGet {α : Type} : List (String × α) → String → Option α
  | [], _ => none
  | p :: rest, k => if p.1 == k then some p.2 else alGet rest k

/-- ES6 `Map.prototype.has`. -/
def alHas {α : Type} (m : List (String × α)) (k : String) : Bool :=
  (alGet m k).isSome

/-- ES6 `Map.prototype.set`: replaces the value in place if the key is
present, otherwise appends the new entry at the end. -/
def alSet {α : Type} : List (String × α) → String → α → List (String × α)
  | [], k, v => [(k, v)]
  | p :: rest, k, v => if p.1 == k then (k, v) :: rest else p :: alSet rest k v

/-- ES6 `Map.prototype.delete`: removes the entry for the key (there is at
most one in a real `Map`) and reports whether an entry was removed. -/
def alDelete {α : Type} : List (String × α) → String → List (String × α) × Bool
  | [], _ => ([], false)
  | p :: rest, k =>
    if p.1 == k then (rest, true)
    else
      let r := alDelete rest k
      (p :: r.1, r.2)

/-- `LocalCache.contains`. -/
def localContains (m : List (String × CacheEntry)) (k : String) : Bool :=
  alHas m k

/-- `LocalCache.delete` (returns the updated map and `Map.delete`'s result). -/
def localDelete (m : List (String × CacheEntry)) (k : String) :
    List (String × CacheEntry) × Bool :=
  alDelete m k

/-- `LocalCache.get`. -/
def localGet (m : List (String × CacheEntry)) (k : String) : Option CacheEntry :=
  alGet m k

/-- `LocalCache.set`. -/
def localSet (m : List (String × CacheEntry)) (k : String) (e : CacheEntry) :
    List (String × CacheEntry) :=
  alSet m k e

/-- `JSON.stringify` of a `CacheEntry` value, as a JSON document. -/
def entryToJson (e : CacheEntry) : JsonValue :=
  .obj [("data", e.data), ("timeStored", .num e.timeStored), ("status", .num e.status)]

/-- The document `LocalCache.saveCache` writes: its `JSON.stringify`
replacer turns the `Map` into `{dataType: "Map", value: Array.from(map.entries())}`
and leaves every other value unchanged.  The map's entries hold no nested
`Map` (keys are strings, `data` is a parsed-JSON payload), so the replacer
fires exactly once, at the root. -/
def saveCacheDoc (cache : List (String × CacheEntry)) : JsonValue :=
  .obj [("dataType", .str "Map"),
        ("value", .arr (cache.map (fun p => .arr [.str p.1, entryToJson p.2])))]

/-- Reading entry `i` of the iterable passed to `new Map(iterable)`:
a two-element (or longer) array contributes `([0], [1])`.  In JS a
non-array element would throw; this branch is unreachable from
`tryLoadFromJson` (see `reviveNode_eq_empty`). -/
def jsonPairOf : JsonValue → Option (JsonValue × JsonValue)
  | .arr (a :: b :: _) => some (a, b)
  | _ => none

/-- `new Map(x)` for the revived JS value `x` found at `value.value`
(`none` models JS `undefined` when the property is missing). -/
def newMapOf : Option JsonValue → List (JsonValue × JsonValue)
  | none => []
  | some (.arr xs) => xs.filterMap jsonPairOf
  | some (.map es) => es
  | some _ => []

/-- The reviver function of `LocalCache.tryLoadFromJson`, applied to one
node whose children have already been revived:
`if (typeof value === "object" && value !== null) { if (value.dataType === "Map")
return new Map(value.value); } return new Map();`.
Note the fallthrough returns a fresh empty `Map` for every value, not the
value itself. -/
def loadReviver : JsonValue → JsonValue
  | .obj fields =>
    match alGet fields "dataType" with
    | some (.str "Map") => .map (newMapOf (alGet fields "value"))
    | _ => .map []
  | _ => .map []

mutual

/-- `JSON.parse(text, reviver)`: the reviver runs bottom-up over the parsed
document; the parse result is the reviver's value at the root.  (A `map`
node never occurs in a parsed document; it is included for totality.) -/
def reviveNode : JsonValue → JsonValue
  | .null => loadReviver .null
  | .bool b => loadReviver (.bool b)
  | .num n => loadReviver (.num n)
  | .str s => loadReviver (.str s)
  | .arr xs => loadReviver (.arr (reviveElems xs))
  | .obj fs => loadReviver (.obj (reviveFields fs))
  | .map es => loadReviver (.map es)

/-- Revive the elements of a JSON array. -/
def reviveElems : List JsonValue → List JsonValue
  | [] => []
  | x :: xs => reviveNode x :: reviveElems xs

/-- Revive the property values of a JSON object. -/
def reviveFields : List (String × JsonValue) → List (String × JsonValue)
  | [] => []
  | f :: fs => (f.1, reviveNode f.2) :: reviveFields fs

end

/-- The state of `cache.json` as seen by `readFileSync` + `JSON.parse`. -/
inductive FileState where
  | absent
  | unreadable
  | invalid
  | json (doc : JsonValue)

/-- `LocalCache.tryLoadFromJson`: `readFileSync("cache.json")` throws when
the file is absent or unreadable, `JSON.parse` throws on malformed text,
and otherwise the revived root value is returned (the TS cast to
`Map<string, CacheEntry>` performs no runtime check). -/
def tryLoadFromJson : FileState → Except String JsonValue
  | .absent => .error "ENOENT: no such file or directory, open cache.json"
  | .unreadable => .error "EACCES: permission denied, open cache.json"
  | .invalid => .error "SyntaxError: Unexpected token in JSON"
  | .json doc => .ok (reviveNode doc)

/-- The `LocalCache` constructor: `this.map = LocalCache.tryLoadFromJson()`
with no exception handling. -/
def localCacheNew : FileState → Except String JsonValue :=
  tryLoadFromJson

/-- A raw value stored under a key in redis: a string that either fails
`JSON.parse` or parses to a JSON document. -/
inductive RawVal where
  | invalid (s : String)
  | json (v : JsonValue)

/-- The redis client as `RedisCache` observes it: either the connection is
down (every command's promise rejects) or up with a keyed store. -/
inductive RedisConn where
  | down
  | up (store : List (String × RawVal))

/-- The rejection value a redis command produces when the connection fails. -/
def netErr : String := "network error"

/-- `this.redis.EXISTS(key)`: the count of existing keys among the
arguments (0 or 1 for a single key). -/
def redisEXISTS : RedisConn → String → Except String Nat
  | .down, _ => .error netErr
  | .up s, k => .ok (if alHas s k then 1 else 0)

/-- `this.redis.DEL(key)`: removes the key and returns the number of keys
removed. -/
def redisDEL : RedisConn → String → RedisConn × Except String Nat
  | .down, _ => (.down, .error netErr)
  | .up s, k =>
    let r := alDelete s k
    (.up r.1, .ok (if r.2 then 1 else 0))

/-- `this.redis.GET(key)`: the raw string stored under the key, or absent. -/
def redisGETraw : RedisConn → String → Except String (Option RawVal)
  | .down, _ => .error netErr
  | .up s, k => .ok (alGet s k)

/-- `this.redis.SETEX(key, ttl, value)` (expiry itself is not modelled;
the TTL argument is carried for fidelity). -/
def redisSETEX : RedisConn → String → Int → RawVal → RedisConn × Except String Unit
  | .down, _, _, _ => (.down, .error netErr)
  | .up s, k, _ttl, v => (.up (alSet s k v), .ok ())

/-- `RedisCache.contains`: `(await this.redis.EXISTS(key)) > 0`. -/
def redisCacheContains (c : RedisConn) (k : String) : Except String Bool :=
  (redisEXISTS c k).map (fun n => decide (n > 0))

/-- `RedisCache.delete`: `(await this.redis.DEL(key)) === 1`. -/
def redisCacheDelete (c : RedisConn) (k : String) : RedisConn × Except String Bool :=
  let r := redisDEL c k
  (r.1, r.2.map (fun n => decide (n = 1)))

/-- `RedisCache.get`: GET the raw value; absent resolves `undefined`;
a raw value that `JSON.parse` rejects makes the promise reject; a parse
result that is `null` rejects with "entry not parsed correctly"; any other
parse result resolves (the TS cast to `CacheEntry` checks nothing). -/
def redisCacheGet (c : RedisConn) (k : String) : Except String (Option JsonValue) :=
  match redisGETraw c k with
  | .error e => .error e
  | .ok none => .ok none
  | .ok (some (.invalid _)) => .error "SyntaxError: Unexpected token in JSON"
  | .ok (some (.json v)) =>
    if v.isNull then .error "entry not parsed correctly" else .ok (some v)

/-- `RedisCache.set`: issues `SETEX(key, CACHE_TTL_SECONDS, JSON.stringify(entry))`
WITHOUT awaiting it, so the method's own promise resolves `()` regardless of
the command's outcome. -/
def redisCacheSet (c : RedisConn) (k : String) (e : CacheEntry) :
    RedisConn × Except String Unit :=
  let r := redisSETEX c k CACHE_TTL_SECONDS (.json (entryToJson e))
  (r.1, .ok ())

/-- `RedisCache.new`: connect the client; resolve with the cache on
success, reject with the connection error otherwise. -/
def redisNew (reachable : Bool) (store : List (String × RawVal)) :
    Except String RedisConn :=
  if reachable then .ok (.up store) else .error "ECONNREFUSED"

/-- The value held by the module-level `let cache: ApiCache` variable. -/
inductive ActiveCache where
  | redisCache (c : RedisConn)
  | localCache (m : JsonValue)

/-- The backend selection in `src/unnamed/part_000`:
`RedisCache.new().then(r => cache = r).catch(e => cache = new LocalCache())`.
If the factory rejects AND `new LocalCache()` itself throws (see
`localCacheNew`), the catch handler throws and `cache` is never assigned:
the result is `none`. -/
def selectCache (reachable : Bool) (store : List (String × RawVal))
    (fs : FileState) : Option ActiveCache :=
  match redisNew reachable store with
  | .ok c => some (.redisCache c)
  | .error _ =>
    match localCacheNew fs with
    | .ok m => some (.localCache m)
    | .error _ => none

/-- An incoming express request as the handler sees it: `req.method`,
`req.url` (path plus raw query string), and `req.query` (the parsed query
parameters). -/
structure HttpRequest where
  method : String
  url : String
  query : List (String × String)

/-- `parseParams`: `new URLSearchParams(query)` — the parameter list. -/
def parseParams (query : List (String × String)) : List (String × String) :=
  query

/-- `sanitizeParams`: for each name to delete, if present, remove every
parameter with that name. -/
def sanitizeParams (params : List (String × String)) (toDelete : List String) :
    List (String × String) :=
  toDelete.foldl
    (fun ps name =>
      if ps.any (fun p => p.1 == name) then ps.filter (fun p => !(p.1 == name))
      else ps)
    params

/-- `URLSearchParams.toString` (percent-encoding is not modelled; this
string feeds only the log line, which no claim is about). -/
def paramsToString (params : List (String × String)) : String :=
  String.intercalate "&" (params.map (fun p => p.1 ++ "=" ++ p.2))

/-- The `url` local variable of the handler: the path part of `req.url`,
plus the sanitized query string when `req.query` is nonempty.  It is used
only for the IN/OUT console logs. -/
def loggedUrl (req : HttpRequest) : String :=
  let base := (req.url.splitOn "?").headD ""
  if req.query.length > 0 then
    base ++ "?" ++ paramsToString (sanitizeParams (parseParams req.query) ["apiKey"])
  else base

/-- The handler's cache key: the template literal
`\x7breq.method\x7d \x7breq.url\x7d` — built from the RAW url, not from the
sanitized `url` variable. -/
def cacheKeyOf (req : HttpRequest) : String :=
  req.method ++ " " ++ req.url

/-- What the handler does with the result of `await cache.get(cacheKey)`. -/
inductive CacheDecision where
  | sendStatusOnly (status : Int)
  | sendJson (status : Int) (data : JsonValue)
  | staleDeleteThenUpstream
  | missThenUpstream

/-- The cache-lookup branch of the request handler: a present entry is
served iff `Date.now() - item.timeStored < CACHE_TTL_SECONDS * 1000`
(with `res.sendStatus` when `item.data === null`, else
`res.status(..).json(..)`); a present stale entry is deleted
(`cache.delete(cacheKey)`) and control falls through to the upstream call;
an absent entry falls through directly. -/
def handleLookup (ttlSeconds : Int) (now : Int) (item : Option CacheEntry) :
    CacheDecision :=
  match item with
  | none => .missThenUpstream
  | some it =>
    if now - it.timeStored < ttlSeconds * 1000 then
      if it.data.isNull then .sendStatusOnly it.status
      else .sendJson it.status it.data
    else .staleDeleteThenUpstream

/-- Whether a decision serves the cached entry to the client. -/
def isServed : CacheDecision → Bool
  | .sendStatusOnly _ => true
  | .sendJson _ _ => true
  | .staleDeleteThenUpstream => false
  | .missThenUpstream => false

/-- The outcome of the axios upstream call, as discriminated by the
handler: a response, an error carrying a response, an error carrying only
the request (network-level failure: no response received), or any other
error. -/
inductive UpstreamOutcome where
  | response (status : Int) (data : JsonValue)
  | errorWithResponse (status : Int) (data : JsonValue)
  | errorWithRequest
  | errorOther (message : String)

/-- What the handler replies to the client. -/
inductive HttpReply where
  | statusJson (status : Int) (data : JsonValue)
  | sendStatus (status : Int)

/-- The upstream branch of the request handler: in every case it writes a
`CacheEntry` under the cache key (`cache.set`) with `timeStored: Date.now()`
and then replies. -/
def handleUpstream (now : Int) (cacheKey : String) (o : UpstreamOutcome) :
    (String × CacheEntry) × HttpReply :=
  match o with
  | .response s d => ((cacheKey, ⟨d, now, s⟩), .statusJson s d)
  | .errorWithResponse s d => ((cacheKey, ⟨d, now, s⟩), .statusJson s d)
  | .errorWithRequest => ((cacheKey, ⟨.null, now, 500⟩), .sendStatus 500)
  | .errorOther _ => ((cacheKey, ⟨.null, now, 500⟩), .sendStatus 500)

/-- JS property access `v.name` on a parsed JSON value (`none` models
`undefined`): how the handler reads `item.data`, `item.timeStored`,
`item.status` off an entry that came back through `JSON.parse`. -/
def jsField : JsonValue → String → Option JsonValue
  | .obj fields, k => alGet fields k
  | _, _ => none

/-- A sample cache entry used by concrete witnesses. -/
def e0 : CacheEntry :=
  ⟨.null, 0, 200⟩

/-- The load reviver returns a `Map` in every branch. -/
theorem loadReviver_isMap (v : JsonValue) : ∃ es, loadReviver v = .map es := by
  unfold loadReviver
  split
  · split
    · exact ⟨_, rfl⟩
    · exact ⟨_, rfl⟩
  · exact ⟨_, rfl⟩

/-- Every revived node is a `Map` (the reviver's result in each case). -/
theorem reviveNode_isMap (v : JsonValue) : ∃ es, reviveNode v = .map es := by
  cases v <;> simp only [reviveNode] <;> exact loadReviver_isMap _

/-- Reviving the fields of an object preserves keys and revives values. -/
theorem alGet_reviveFields (fs : List (String × JsonValue)) (k : String) :
    alGet (reviveFields fs) k = (alGet fs k).map reviveNode := by
  induction fs with
  | nil => rfl
  | cons f fs ih =>
    simp only [reviveFields, alGet]
    split <;> simp [ih]

/-- The central fact about `tryLoadFromJson`'s reviver: because the
fallthrough branch replaces EVERY value (strings included) with an empty
`Map`, the revived `dataType` property can never equal the string "Map",
so the root of any parsed document revives to an empty `Map`. -/
theorem reviveNode_eq_empty (v : JsonValue) : reviveNode v = .map [] := by
  cases v with
  | obj fs =>
    simp only [reviveNode, loadReviver]
    have h := alGet_reviveFields fs "dataType"
    cases hd : alGet fs "dataType" with
    | none =>
      rw [h, hd]
      simp
    | some w =>
      rw [h, hd]
      obtain ⟨es, hes⟩ := reviveNode_isMap w
      simp [hes]
  | null => rfl
  | bool b => rfl
  | num n => rfl
  | str s => rfl
  | arr xs => simp only [reviveNode, loadReviver]
  | map es => rfl

/-- Loading any readable, JSON-parsable file yields an empty `Map`. -/
theorem tryLoadFromJson_json (doc : JsonValue) :
    tryLoadFromJson (.json doc) = .ok (.map []) := by
  simp [tryLoadFromJson, reviveNode_eq_empty]

/-- `Map.get` after `Map.set` of the same key finds the new value. -/
theorem alGet_alSet_self {α : Type} (m : List (String × α)) (k : String) (v : α) :
    alGet (alSet m k v) k = some v := by
  induction m with
  | nil => simp [alSet, alGet]
  | cons p rest ih =>
    simp only [alSet]
    split
    · simp [alGet]
    · next h => simp [alGet, h, ih]

/-- A key of the map after `Map.set` is an old key or the inserted key. -/
theorem mem_keys_alSet {α : Type} (m : List (String × α)) (k : String) (v : α)
    (x : String) (hx : x ∈ (alSet m k v).map Prod.fst) :
    x ∈ m.map Prod.fst ∨ x = k := by
  induction m with
  | nil =>
    right
    simpa [alSet] using hx
  | cons p rest ih =>
    simp only [alSet] at hx
    split at hx
    · next h =>
      simp only [List.map_cons, List.mem_cons] at hx ⊢
      rcases hx with hx | hx
      · right; exact hx
      · left; right; exact hx
    · next h =>
      simp only [List.map_cons, List.mem_cons] at hx ⊢
      rcases hx with hx | hx
      · left; left; exact hx
      · rcases ih hx with h1 | h1
        · left; right; exact h1
        · right; exact h1

/-- `Map.set` preserves distinctness of keys. -/
theorem nodup_keys_alSet {α : Type} (m : List (String × α)) (k : String) (v : α)
    (h : (m.map Prod.fst).Nodup) : ((alSet m k v).map Prod.fst).Nodup := by
  induction m with
  | nil => simp [alSet]
  | cons p rest ih =>
    simp only [List.map_cons, List.nodup_cons] at h
    simp only [alSet]
    split
    · next hk =>
      simp only [List.map_cons, List.nodup_cons]
      refine ⟨?_, h.2⟩
      have : p.1 = k := by simpa using hk
      rw [← this]
      exact h.1
    · next hk =>
      simp only [List.map_cons, List.nodup_cons]
      refine ⟨?_, ih h.2⟩
      intro hmem
      rcases mem_keys_alSet rest k v p.1 hmem with h1 | h1
      · exact h.1 h1
      · exact hk (by simpa using h1)

/-- `Map.get` misses exactly when the key is not among the map's keys. -/
theorem alGet_eq_none_iff {α : Type} (m : List (String × α)) (k : String) :
    alGet m k = none ↔ k ∉ m.map Prod.fst := by
  induction m with
  | nil => simp [alGet]
  | cons p rest ih =>
    simp only [alGet, List.map_cons, List.mem_cons]
    split
    · next h =>
      have hpk : p.1 = k := by simpa using h
      simp [hpk]
    · next h =>
      have hpk : ¬p.1 = k := by simpa using h
      rw [ih]
      constructor
      · intro hn hc
        rcases hc with hc | hc
        · exact hpk hc.symm
        · exact hn hc
      · intro hn hc
        exact hn (Or.inr hc)

/-- `Map.delete` returns whether the key was present. -/
theorem alDelete_snd {α : Type} (m : List (String × α)) (k : String) :
    (alDelete m k).2 = (alGet m k).isSome := by
  induction m with
  | nil => simp [alDelete, alGet]
  | cons p rest ih =>
    simp only [alDelete, alGet]
    split
    · simp
    · simpa using ih

/-- With distinct keys, `Map.get` after `Map.delete` of the key misses. -/
theorem alGet_alDelete_self {α : Type} (m : List (String × α)) (k : String)
    (h : (m.map Prod.fst).Nodup) : alGet (alDelete m k).1 k = none := by
  induction m with
  | nil => simp [alDelete, alGet]
  | cons p rest ih =>
    simp only [List.map_cons, List.nodup_cons] at h
    simp only [alDelete]
    split
    · next hk =>
      have hpk : p.1 = k := by simpa using hk
      rw [alGet_eq_none_iff]
      rw [← hpk]
      exact h.1
    · next hk =>
      simp only [alGet]
      rw [if_neg hk]
      exact ih h.2

/-- Left cancellation for string concatenation. -/
theorem strAppendLeftCancel (a b c : String) (h : a ++ b = a ++ c) : b = c := by
  have hd : a.data ++ b.data = a.data ++ c.data := by
    rw [← String.data_append, ← String.data_append, h]
  have hbc : b.data = c.data := List.append_cancel_left hd
  cases b; cases c
  exact congrArg String.mk hbc

/-- C1 — the claim is false of the code and the code contradicts its own
intent (its comment cites the standard Map round-trip recipe, whose
reviver returns `value` in the fallthrough; this one returns `new Map()`).
Serializing ANY mapping with `saveCache` and loading the document with
`tryLoadFromJson` yields the empty mapping, so the round trip loses every
entry; the concrete failing input `[("a b&c=1", e0)]` is a nonempty
mapping (with a key containing spaces and special characters) whose round
trip is empty. -/
theorem c1_saveCache_load_loses_all_entries :
    (∀ m : List (String × CacheEntry),
      tryLoadFromJson (.json (saveCacheDoc m)) = .ok (.map []))
    ∧ ([("a b&c=1", e0)] : List (String × CacheEntry)) ≠ [] :=
  ⟨fun m => tryLoadFromJson_json (saveCacheDoc m), by simp⟩

/-- C2 counterexample — constructing the File/Memory backend when the
persisted cache file is ABSENT propagates the `readFileSync` exception
instead of yielding an empty mapping: the claim's "does not raise an
error" is false. -/
theorem c2_construction_throws_on_missing_file :
    localCacheNew FileState.absent
      = .error "ENOENT: no such file or directory, open cache.json" :=
  rfl

/-- C2 amended — construction yields an empty in-memory mapping without
error whenever the persisted file is readable and parses as JSON (whether
or not the document has the expected tagged-map format); when the file is
absent, unreadable, or not valid JSON, construction propagates the
read/parse error. -/
theorem c2_construction_behavior (doc : JsonValue) :
    localCacheNew (.json doc) = .ok (.map [])
    ∧ localCacheNew .absent
        = .error "ENOENT: no such file or directory, open cache.json"
    ∧ localCacheNew .unreadable
        = .error "EACCES: permission denied, open cache.json"
    ∧ localCacheNew .invalid = .error "SyntaxError: Unexpected token in JSON" :=
  ⟨tryLoadFromJson_json doc, rfl, rfl, rfl⟩

/-- C3 counterexample — two requests identical except for the presence of
the `apiKey` query parameter get DIFFERENT cache keys, because the key is
built from the raw `req.url`, not from the sanitized `url` variable. -/
theorem c3_apiKey_changes_cacheKey :
    cacheKeyOf ⟨"GET", "/recipes?query=pasta&apiKey=secret",
        [("query", "pasta"), ("apiKey", "secret")]⟩
      ≠ cacheKeyOf ⟨"GET", "/recipes?query=pasta", [("query", "pasta")]⟩ := by
  decide

/-- C3 amended — the request handler computes the cache key from the
request method and the RAW path+query string including any `apiKey`
parameter (`sanitizeParams` touches only the logged URL), so two requests
with the same method whose raw URLs differ — in particular only in the
value or presence of `apiKey` — have different cache keys. -/
theorem c3_cacheKey_uses_raw_url (m u1 u2 : String)
    (q1 q2 : List (String × String)) (h : u1 ≠ u2) :
    cacheKeyOf ⟨m, u1, q1⟩ ≠ cacheKeyOf ⟨m, u2, q2⟩ := by
  intro he
  exact h (strAppendLeftCancel (m ++ " ") u1 u2 he)

/-- C3 witness — instantiating `c3_cacheKey_uses_raw_url` on two concrete
URLs differing only in the `apiKey` value. -/
theorem c3_cacheKey_uses_raw_url_witness :
    cacheKeyOf ⟨"GET", "/r?x=1&apiKey=a", []⟩
      ≠ cacheKeyOf ⟨"GET", "/r?x=1&apiKey=b", []⟩ :=
  c3_cacheKey_uses_raw_url "GET" "/r?x=1&apiKey=a" "/r?x=1&apiKey=b" [] []
    (by decide)

/-- C4 counterexample — `RedisCache.set` does not await `SETEX`, so on a
failed connection its promise still resolves: a failed `set` IS silently
treated as success, contradicting the claim. -/
theorem c4_set_resolves_despite_network_failure :
    (redisCacheSet RedisConn.down "k" e0).2 = Except.ok () :=
  rfl

/-- C4 amended — network failure during `contains`, `delete`, or `get`
propagates to the immediate caller as an error, but `set` does not await
the underlying `SETEX` command, so its returned promise resolves
regardless and a failed write is never reported to the caller. -/
theorem c4_error_propagation (k : String) (e : CacheEntry) :
    redisCacheContains RedisConn.down k = .error netErr
    ∧ (redisCacheDelete RedisConn.down k).2 = .error netErr
    ∧ redisCacheGet RedisConn.down k = .error netErr
    ∧ (redisCacheSet RedisConn.down k e).2 = .ok () :=
  ⟨rfl, rfl, rfl, rfl⟩

/-- C5 counterexample — when the networked factory rejects AND the local
cache file is missing, `new LocalCache()` throws inside the `.catch`
handler, so the selector ends holding NO backend: "never neither" is
false. -/
theorem c5_selector_can_end_with_no_backend :
    selectCache false [] FileState.absent = none :=
  rfl

/-- C5 amended — if the networked factory resolves, the selector holds the
networked backend; if it rejects and the local cache file is readable
valid JSON, the selector holds a File/Memory backend (with an empty
mapping); if it rejects and the file is absent, unreadable, or invalid
JSON, the fallback constructor throws and the selector holds no backend. -/
theorem c5_selection_behavior (store : List (String × RawVal))
    (fs : FileState) (doc : JsonValue) :
    selectCache true store fs = some (.redisCache (.up store))
    ∧ selectCache false store (.json doc) = some (.localCache (.map []))
    ∧ selectCache false store .absent = none
    ∧ selectCache false store .unreadable = none
    ∧ selectCache false store .invalid = none := by
  refine ⟨rfl, ?_, rfl, rfl, rfl⟩
  simp [selectCache, redisNew, localCacheNew, tryLoadFromJson,
    reviveNode_eq_empty]

/-- C6 — set-then-get round trip on both backends: the File/Memory backend
returns the very entry stored; the Redis backend returns the JSON document
of the entry (`JSON.parse` of `JSON.stringify(entry)`), whose `data`,
`timeStored` and `status` properties read back exactly the stored fields —
including the case `data = null`, since the stored document itself is an
object, never `null`. -/
theorem c6_set_then_get_roundtrip (m : List (String × CacheEntry))
    (store : List (String × RawVal)) (k : String) (e : CacheEntry) :
    localGet (localSet m k e) k = some e
    ∧ redisCacheGet (redisCacheSet (.up store) k e).1 k
        = .ok (some (entryToJson e))
    ∧ jsField (entryToJson e) "data" = some e.data
    ∧ jsField (entryToJson e) "timeStored" = some (.num e.timeStored)
    ∧ jsField (entryToJson e) "status" = some (.num e.status) := by
  refine ⟨alGet_alSet_self m k e, ?_, ?_, ?_, ?_⟩
  · simp [redisCacheSet, redisSETEX, redisCacheGet, redisGETraw,
      alGet_alSet_self, entryToJson, JsonValue.isNull]
  · simp [jsField, entryToJson, alGet]
  · simp [jsField, entryToJson, alGet]
  · simp [jsField, entryToJson, alGet]

/-- C7 — delete semantics on both backends, for maps with distinct keys
(the only maps an ES6 `Map` or a redis keyspace can be): deleting a key
just set returns true and a subsequent get misses; deleting an absent key
returns false. -/
theorem c7_delete_semantics (m : List (String × CacheEntry))
    (store : List (String × RawVal)) (k k2 : String) (e : CacheEntry)
    (hm : (m.map Prod.fst).Nodup) (hs : (store.map Prod.fst).Nodup)
    (hm2 : localGet m k2 = none) (hs2 : alGet store k2 = none) :
    (localDelete (localSet m k e) k).2 = true
    ∧ localGet (localDelete (localSet m k e) k).1 k = none
    ∧ (localDelete m k2).2 = false
    ∧ (redisCacheDelete (redisCacheSet (.up store) k e).1 k).2 = .ok true
    ∧ redisCacheGet (redisCacheDelete (redisCacheSet (.up store) k e).1 k).1 k
        = .ok none
    ∧ (redisCacheDelete (.up store) k2).2 = .ok false := by
  refine ⟨?_, ?_, ?_, ?_, ?_, ?_⟩
  · simp [localDelete, localSet, alDelete_snd, alGet_alSet_self]
  · exact alGet_alDelete_self _ k (nodup_keys_alSet m k e hm)
  · have h2 : alGet m k2 = none := hm2
    simp [localDelete, alDelete_snd, h2]
  · simp [redisCacheDelete, redisCacheSet, redisSETEX, redisDEL,
      alDelete_snd, alGet_alSet_self, Except.map]
  · have hn := alGet_alDelete_self (alSet store k (.json (entryToJson e))) k
      (nodup_keys_alSet store k (.json (entryToJson e)) hs)
    simp [redisCacheGet, redisGETraw, redisCacheDelete, redisCacheSet,
      redisSETEX, redisDEL, hn]
  · simp [redisCacheDelete, redisDEL, alDelete_snd, hs2, Except.map]

/-- C7 witness — `c7_delete_semantics` at a concrete one-entry map and
store, set key "k", absent key "z". -/
theorem c7_delete_semantics_witness :
    (localDelete (localSet [("x", e0)] "k" e0) "k").2 = true
    ∧ localGet (localDelete (localSet [("x", e0)] "k" e0) "k").1 "k" = none
    ∧ (localDelete [("x", e0)] "z").2 = false
    ∧ (redisCacheDelete
        (redisCacheSet (.up [("x", RawVal.json .null)]) "k" e0).1 "k").2
        = .ok true
    ∧ redisCacheGet (redisCacheDelete
        (redisCacheSet (.up [("x", RawVal.json .null)]) "k" e0).1 "k").1 "k"
        = .ok none
    ∧ (redisCacheDelete (.up [("x", RawVal.json .null)]) "z").2 = .ok false :=
  c7_delete_semantics [("x", e0)] [("x", RawVal.json .null)] "k" "z" e0
    (by simp) (by simp) (by simp [localGet, alGet]) (by simp [alGet])

/-- C8 — the request handler serves a present entry iff
`now - timeStored < CACHE_TTL_SECONDS * 1000`, and on a present entry
failing that test its decision is exactly "delete the stale entry and fall
through to upstream". -/
theorem c8_freshness_window (ttl now : Int) (e : CacheEntry) :
    (isServed (handleLookup ttl now (some e)) = true
      ↔ now - e.timeStored < ttl * 1000)
    ∧ (handleLookup ttl now (some e) = .staleDeleteThenUpstream
      ↔ ¬now - e.timeStored < ttl * 1000) := by
  by_cases h : now - e.timeStored < ttl * 1000
  · cases hd : e.data.isNull <;>
      constructor <;> simp [handleLookup, h, hd, isServed]
  · constructor <;> simp [handleLookup, h, isServed]

/-- C9 — on the Redis backend, a stored raw value that parses to JSON
`null` makes `get` reject with the distinct decode-failure message "entry
not parsed correctly" rather than resolve as a miss; an absent raw value
resolves as a miss; and no present raw value ever resolves as a miss. -/
theorem c9_get_null_decode_failure (store : List (String × RawVal))
    (k k2 k3 : String) (r : RawVal)
    (hnull : alGet store k = some (.json .null))
    (habs : alGet store k2 = none)
    (hsome : alGet store k3 = some r) :
    redisCacheGet (.up store) k = .error "entry not parsed correctly"
    ∧ redisCacheGet (.up store) k2 = .ok none
    ∧ redisCacheGet (.up store) k3 ≠ .ok none := by
  refine ⟨?_, ?_, ?_⟩
  · simp [redisCacheGet, redisGETraw, hnull, JsonValue.isNull]
  · simp [redisCacheGet, redisGETraw, habs]
  · cases r with
    | invalid s => simp [redisCacheGet, redisGETraw, hsome]
    | json v =>
      cases v <;> simp [redisCacheGet, redisGETraw, hsome, JsonValue.isNull]

/-- C9 witness — `c9_get_null_decode_failure` on the store holding the raw
string "null" under key "k" and nothing under "z". -/
theorem c9_get_null_decode_failure_witness :
    redisCacheGet (.up [("k", RawVal.json .null)]) "k"
      = .error "entry not parsed correctly"
    ∧ redisCacheGet (.up [("k", RawVal.json .null)]) "z" = .ok none
    ∧ redisCacheGet (.up [("k", RawVal.json .null)]) "k" ≠ .ok none :=
  c9_get_null_decode_failure [("k", RawVal.json .null)] "k" "z" "k"
    (RawVal.json .null) (by simp [alGet]) (by simp [alGet]) (by simp [alGet])

/-- C10 — when the upstream call fails without a response (the
`error.request` branch), the handler writes the entry
`{data: null, status: 500, timeStored: now}` under the request's cache key
and replies `sendStatus(500)`; that entry then sits in the cache subject
only to the ordinary freshness window, i.e. a later lookup serves it iff
`t - now < TTL * 1000`, exactly like a cached success. -/
theorem c10_upstream_failure_cached (now t ttl : Int) (key : String) :
    handleUpstream now key .errorWithRequest
      = ((key, ⟨.null, now, 500⟩), .sendStatus 500)
    ∧ (isServed (handleLookup ttl t (some ⟨.null, now, 500⟩)) = true
      ↔ t - now < ttl * 1000) := by
  refine ⟨rfl, ?_⟩
  by_cases h : t - now < ttl * 1000 <;>
    simp [handleLookup, JsonValue.isNull, isServed, h]
